import Mathlib

/-!
Shallow embedding of the request/response core of the `slumber` terminal
HTTP client, together with proofs of the specification's testable
properties.  The embedding follows the Rust sources:

* `crates/core/src/http/models.rs` — override model, request/response
  records, curl export, body accessors, serde round-trips (namespace
  `Slumber`);
* `src/tui/view/state.rs` and `src/http/record.rs` — the request
  lifecycle state machine consumed by the view (namespace `Slumber.Tui`).

Machine bytes are modelled as `Nat` (each byte `< 256` where it
matters), timestamps as `Int` on an abstract timeline, and fallible Rust
functions as `Option`/`Except` values.
-/

namespace Slumber

/-- Bytes buffers (`bytes::Bytes`, `Vec<u8>`, `&[u8]`) as lists of `Nat`. -/
abbrev Bytes := List Nat

/-- Header maps (`reqwest::header::HeaderMap`): an ordered multimap from
header names (stored lowercase, the `HeaderName` invariant) to raw byte
values. -/
abbrev HeaderMap := List (String × Bytes)

/-- `ProfileId` from the collection model: an opaque string id. -/
abbrev ProfileId := String

/-- `RecipeId` from the collection model: an opaque string id. -/
abbrev RecipeId := String

/-- `RequestId(pub Uuid)`: a 128-bit value modelled as a `Nat`. -/
structure RequestId where
  uuid : Nat
deriving DecidableEq, Repr

/-- A template from the template engine (external collaborator); only its
identity matters here, so it is modelled as its source text. -/
structure Template where
  source : String
deriving DecidableEq, Repr

/-- `BuildFieldOverride`: modifications made to a single field (query
param, header, etc.) in a recipe. -/
inductive BuildFieldOverride where
  /-- Do not include this field in the recipe -/
  | Omit : BuildFieldOverride
  /-- Replace the value for this field with a different template -/
  | Override : Template → BuildFieldOverride
deriving DecidableEq, Repr

/-- `BuildFieldOverrides`: a collection of modifications made to a
particular section of a recipe, keyed by positional index.  The Rust
`HashMap<usize, BuildFieldOverride>` is modelled as an association list
with unique keys; `HashMap::get` is association-list lookup. -/
structure BuildFieldOverrides where
  overrides : List (Nat × BuildFieldOverride)
deriving DecidableEq, Repr

/-- `BuildFieldOverrides::get`: the value to be used for a particular
field, keyed by index.  Returns `none` if the field should be dropped
from the request, and uses the given default if no override is
provided. -/
def BuildFieldOverrides.get (self : BuildFieldOverrides) (index : Nat)
    (default : Template) : Option Template :=
  match self.overrides.lookup index with
  | some .Omit => none
  | some (.Override template) => some template
  | none => some default

/-- `Authentication` from the collection model (`collection` module,
external to the provided sources): wholesale authentication data. -/
inductive Authentication where
  | basic (username : String) (password : Option String)
  | bearer (token : String)
deriving DecidableEq, Repr

/-- `RecipeBody` from the collection model (external to the provided
sources); only its identity matters here. -/
structure RecipeBody where
  source : Template
deriving DecidableEq, Repr

/-- `BuildOptions`: options for modifying a recipe during a build. -/
structure BuildOptions where
  /-- Authentication can be overridden, but not disabled. -/
  authentication : Option Authentication
  headers : BuildFieldOverrides
  query_parameters : BuildFieldOverrides
  form_fields : BuildFieldOverrides
  /-- Override body; not used for form bodies. -/
  body : Option RecipeBody

/-- `RequestSeed`: initialization data needed to build one request. -/
structure RequestSeed where
  id : RequestId
  recipe_id : RecipeId
  options : BuildOptions

/-- `reqwest::Body`: either in-memory bytes or a streaming source. -/
inductive Body where
  | bytes (data : Bytes)
  | stream
deriving DecidableEq, Repr

/-- `reqwest::Body::as_bytes`: the in-memory bytes, or `none` for a
streaming body. -/
def Body.as_bytes : Body → Option Bytes
  | .bytes data => some data
  | .stream => none

/-- `reqwest::Request`: the single-use transport-level request (the
fields read by `RequestRecord::new`). -/
structure Request where
  method : String
  url : String
  headers : HeaderMap
  body : Option Body
deriving DecidableEq, Repr

/-- `RequestRecord` (`crates/core/src/http/models.rs`): an immutable,
serializable snapshot of an actually-constructed request.  `Method` and
`Url` are modelled by their canonical string forms. -/
structure RequestRecord where
  id : RequestId
  profile_id : Option ProfileId
  recipe_id : RecipeId
  method : String
  url : String
  headers : HeaderMap
  body : Option Bytes
deriving DecidableEq, Repr

/-- `RequestRecord::new`: create a record by copying data out of the
already-built transport request.  Stream bodies and bodies over the size
threshold are thrown away. -/
def RequestRecord.new (seed : RequestSeed) (profile_id : Option ProfileId)
    (request : Request) (max_body_size : Nat) : RequestRecord :=
  { id := seed.id
    profile_id := profile_id
    recipe_id := seed.recipe_id
    method := request.method
    url := request.url
    headers := request.headers
    body := (request.body.bind Body.as_bytes).filter
      (fun body => decide (body.length ≤ max_body_size)) }

/-- `true` iff `lo ≤ b ≤ hi`. -/
def between (lo b hi : Nat) : Bool :=
  decide (lo ≤ b) && decide (b ≤ hi)

/-- A UTF-8 continuation byte (`0x80..=0xBF`). -/
def isUtf8Cont (b : Nat) : Bool :=
  between 0x80 b 0xBF

/-- Valid ranges for the second byte of a three-byte UTF-8 sequence
(excludes overlong forms and surrogates, as `std::str::from_utf8`
does). -/
def utf8Second3 (b0 b1 : Nat) : Bool :=
  if b0 == 0xE0 then between 0xA0 b1 0xBF
  else if b0 == 0xED then between 0x80 b1 0x9F
  else isUtf8Cont b1

/-- Valid ranges for the second byte of a four-byte UTF-8 sequence
(excludes overlong forms and values above `U+10FFFF`). -/
def utf8Second4 (b0 b1 : Nat) : Bool :=
  if b0 == 0xF0 then between 0x90 b1 0xBF
  else if b0 == 0xF4 then between 0x80 b1 0x8F
  else isUtf8Cont b1

/-- Strict UTF-8 decoding of a byte sequence, as performed by
`std::str::from_utf8`: `none` exactly on invalid UTF-8. -/
def utf8Decode : List Nat → Option (List Char)
  | [] => some []
  | b0 :: rest =>
    if b0 < 0x80 then
      (utf8Decode rest).map (fun cs => Char.ofNat b0 :: cs)
    else if between 0xC2 b0 0xDF then
      match rest with
      | b1 :: rest1 =>
        if isUtf8Cont b1 then
          (utf8Decode rest1).map
            (fun cs => Char.ofNat ((b0 - 0xC0) * 0x40 + (b1 - 0x80)) :: cs)
        else none
      | [] => none
    else if between 0xE0 b0 0xEF then
      match rest with
      | b1 :: b2 :: rest2 =>
        if utf8Second3 b0 b1 && isUtf8Cont b2 then
          (utf8Decode rest2).map
            (fun cs => Char.ofNat
              ((b0 - 0xE0) * 0x1000 + (b1 - 0x80) * 0x40 + (b2 - 0x80)) :: cs)
        else none
      | _ => none
    else if between 0xF0 b0 0xF4 then
      match rest with
      | b1 :: b2 :: b3 :: rest3 =>
        if utf8Second4 b0 b1 && isUtf8Cont b2 && isUtf8Cont b3 then
          (utf8Decode rest3).map
            (fun cs => Char.ofNat
              ((b0 - 0xF0) * 0x40000 + (b1 - 0x80) * 0x1000
                + (b2 - 0x80) * 0x40 + (b3 - 0x80)) :: cs)
        else none
      | _ => none
    else none

/-- `std::str::from_utf8` as an `Option`-valued string decoder. -/
def utf8Str (b : Bytes) : Option String :=
  (utf8Decode b).map (fun cs => ⟨cs⟩)

/-- A byte `HeaderValue::to_str` accepts: visible ASCII (32–126) or
tab. -/
def isVisibleAsciiByte (b : Nat) : Bool :=
  (decide (32 ≤ b) && decide (b < 127)) || b == 9

/-- `HeaderValue::to_str`: yields a string iff every byte is visible
ASCII (or tab); otherwise errors. -/
def headerValueToStr (v : Bytes) : Option String :=
  if v.all isVisibleAsciiByte then some ⟨v.map Char.ofNat⟩ else none

/-- Total rendering of an (ASCII) byte sequence as a string; agrees with
`headerValueToStr` on visible-ASCII values. -/
def asciiStr (v : Bytes) : String :=
  ⟨v.map Char.ofNat⟩

/-- The byte sequence of an ASCII string, for building concrete
examples. -/
def asciiBytes (s : String) : Bytes :=
  s.data.map Char.toNat

/-- `RequestRecord::body_str`: the body decoded as UTF-8; `Ok(None)`
when there is no body, an error when the bytes are not valid UTF-8. -/
def RequestRecord.body_str (self : RequestRecord) :
    Except String (Option String) :=
  match self.body with
  | some body =>
    match utf8Str body with
    | some s => .ok (some s)
    | none => .error "Error decoding body"
  | none => .ok none

/-- The `--header` flags written by `RequestRecord::to_curl`, one per
header-map entry, failing on the first value that is not decodable
text. -/
def curlHeaderFlags : HeaderMap → Except String String
  | [] => .ok ""
  | (name, value) :: rest =>
    match headerValueToStr value with
    | none => .error "Error decoding header value"
    | some v =>
      (curlHeaderFlags rest).map
        (fun s => " --header '" ++ name ++ ": " ++ v ++ "'" ++ s)

/-- The header flags as a total function of the header map, assuming all
values are visible ASCII. -/
def curlHeaderFlagsStr : HeaderMap → String
  | [] => ""
  | (name, value) :: rest =>
    " --header '" ++ name ++ ": " ++ asciiStr value ++ "'"
      ++ curlHeaderFlagsStr rest

/-- `RequestRecord::to_curl`: a cURL command equivalent to the request —
`curl -X{method} --url '{url}'`, one ` --header '{name}: {value}'` flag
per header entry, and ` --data '{body}'` when a body is present.  The
`?` operators on header decoding and on `body_str` are the two `match`
layers: the command fails iff a header value is not decodable text or
the body is not valid UTF-8. -/
def RequestRecord.to_curl (self : RequestRecord) : Except String String :=
  match curlHeaderFlags self.headers with
  | .error e => .error e
  | .ok headerFlags =>
    match self.body_str with
    | .error e => .error e
    | .ok (some body) =>
      .ok ("curl -X" ++ self.method ++ " --url '" ++ self.url ++ "'"
        ++ headerFlags ++ " --data '" ++ body ++ "'")
    | .ok none =>
      .ok ("curl -X" ++ self.method ++ " --url '" ++ self.url ++ "'"
        ++ headerFlags)

/-- `str::split(c)` on character lists: the (possibly empty) chunks
between occurrences of `c`; splitting the empty text yields `[[]]`. -/
def splitOnCharList (c : Char) : List Char → List (List Char)
  | [] => [[]]
  | x :: xs =>
    if x == c then [] :: splitOnCharList c xs
    else
      match splitOnCharList c xs with
      | r :: rs => (x :: r) :: rs
      | [] => [[x]]

/-- `str::split(c)` on strings. -/
def splitChar (s : String) (c : Char) : List String :=
  (splitOnCharList c s.data).map (fun l => ⟨l⟩)

/-- `str::trim`: strip leading and trailing whitespace. -/
def trimStr (s : String) : String :=
  ⟨((s.data.dropWhile Char.isWhitespace).reverse.dropWhile
    Char.isWhitespace).reverse⟩

/-- `str::split_once`: split a character list at the first occurrence
of `c`, dropping the separator. -/
def splitOnceList (c : Char) : List Char → Option (List Char × List Char)
  | [] => none
  | x :: xs =>
    if x == c then some ([], xs)
    else (splitOnceList c xs).map (fun p => (x :: p.1, p.2))

/-- `str::split_once` on strings. -/
def splitOnce (s : String) (c : Char) : Option (String × String) :=
  (splitOnceList c s.data).map (fun p => (⟨p.1⟩, ⟨p.2⟩))

/-- `str::trim_matches`: strip every leading and trailing occurrence of
`c`. -/
def trimMatches (s : String) (c : Char) : String :=
  ⟨((s.data.dropWhile (· == c)).reverse.dropWhile (· == c)).reverse⟩

/-- `HeaderMap::get`: the first value stored for the given (lowercase)
header name. -/
def headerGet (headers : HeaderMap) (name : String) : Option Bytes :=
  headers.lookup name

/-- The parameter scan inside `ResponseRecord::file_name`: over the
semicolon-separated parts of the Content-Disposition value, find the
first part whose (trimmed) text splits at `=` into the exact key
`filename`, and return its value with surrounding quotes stripped. -/
def findFilenameParam (parts : List String) : Option String :=
  parts.findSome? (fun part =>
    match splitOnce (trimStr part) '=' with
    | none => none
    | some (key, value) =>
      if key == "filename" then some (trimMatches value '"') else none)

/-- Token characters of the HTTP/MIME grammars (RFC 7230 `tchar`):
alphanumerics and `!#$%&'*+-.^_`|~` (the apostrophe and backtick written
via their code points). -/
def isTokenChar (c : Char) : Bool :=
  c.isAlphanum ||
    ['!', '#', '$', '%', '&', '*', '+', '-', '.', '^', '_', '|', '~'].contains c ||
    c == Char.ofNat 39 || c == Char.ofNat 96

/-- One `key=value` parameter of a MIME type, validated as the external
`mime` crate does: token key, token or quoted value. -/
def paramValid (p : String) : Bool :=
  match splitOnce (trimStr p) '=' with
  | none => false
  | some (k, v) =>
    !k.data.isEmpty && k.data.all isTokenChar &&
      (!v.data.isEmpty && (v.data.all isTokenChar ||
        (decide (v.data.length ≥ 2) && v.data.head? == some (Char.ofNat 34) &&
          v.data.getLast? == some (Char.ofNat 34))))

/-- A parsed MIME type, as the external `mime` crate exposes it to
`file_name`: essence type and subtype. -/
structure Mime where
  type : String
  subtype : String
deriving DecidableEq, Repr

/-- `mime::Mime::from_str` (external `mime` crate), modelled for the
grammar `type/subtype` with optional `;`-separated parameters: both
names must be nonempty token words; the subtype (and hence `data.<ext>`)
is kept verbatim. -/
def mimeParse (s : String) : Option Mime :=
  match splitOnce s '/' with
  | none => none
  | some (ty, rest) =>
    let subParams : String × Option String :=
      match splitOnce rest ';' with
      | none => (rest, none)
      | some (sub, ps) => (sub, some ps)
    if !subParams.1.data.isEmpty && subParams.1.data.all isTokenChar &&
        !ty.data.isEmpty && ty.data.all isTokenChar then
      match subParams.2 with
      | none => some ⟨ty, subParams.1⟩
      | some ps =>
        if (splitChar ps ';').all paramValid then some ⟨ty, subParams.1⟩
        else none
    else none

/-- `ResponseContent` (`http/content_type.rs`, not among the provided
sources).  Modelled from the spec: content-type-specific body parsers
are external collaborators, so a parsed body is an opaque parsed
representation. -/
structure ResponseContent where
  rendered : String
deriving DecidableEq, Repr

/-- `ResponseBody`: raw body bytes plus the lazily attached parsed
representation (skipped by serde). -/
structure ResponseBody where
  data : Bytes
  parsed : Option ResponseContent
deriving DecidableEq, Repr

/-- `ResponseBody::new`: construct from bytes with no parsed body. -/
def ResponseBody.new (data : Bytes) : ResponseBody :=
  { data := data, parsed := none }

/-- `ResponseBody::bytes`: raw content bytes. -/
def ResponseBody.bytes (self : ResponseBody) : Bytes :=
  self.data

/-- `ResponseBody::text`: bytes as text, if valid UTF-8. -/
def ResponseBody.text (self : ResponseBody) : Option String :=
  utf8Str self.data

/-- `ResponseBody::size`: body size in bytes. -/
def ResponseBody.size (self : ResponseBody) : Nat :=
  self.data.length

/-- The test-only `PartialEq for ResponseBody`: raw data only, ignoring
the derived parsed body. -/
def ResponseBody.eqv (a b : ResponseBody) : Prop :=
  a.data = b.data

/-- `ResponseRecord`: status, headers and body of a received
response. -/
structure ResponseRecord where
  status : Nat
  headers : HeaderMap
  body : ResponseBody
deriving DecidableEq, Repr

/-- `ResponseRecord::set_parsed_body` (Rust `&mut self`, modelled by
state passing): store the parsed form of the body. -/
def ResponseRecord.set_parsed_body (self : ResponseRecord)
    (body : ResponseContent) : ResponseRecord :=
  { self with body := { self.body with parsed := some body } }

/-- The derived test-only `PartialEq for ResponseRecord`: field-wise,
with the body compared by `ResponseBody`'s custom equality. -/
def ResponseRecord.eqv (a b : ResponseRecord) : Prop :=
  a.status = b.status ∧ a.headers = b.headers ∧ a.body.eqv b.body

/-- `ResponseRecord::file_name`: check the Content-Disposition header
for a `filename` parameter; if it is missing or yields nothing, guess
`data.<subtype>` from the Content-Type header. -/
def ResponseRecord.file_name (self : ResponseRecord) : Option String :=
  (match headerGet self.headers "content-disposition" with
    | none => none
    | some value =>
      match headerValueToStr value with
      | none => none
      | some s => findFilenameParam (splitChar s ';')).orElse
    (fun _ =>
      match headerGet self.headers "content-type" with
      | none => none
      | some ct =>
        match headerValueToStr ct with
        | none => none
        | some s => (mimeParse s).map (fun m => "data." ++ Mime.subtype m))

/-- `serde_method` serialization: the method's textual verb name. -/
def serde_method.serialize (m : String) : String :=
  m

/-- `serde_method` deserialization: `Method::from_str`, which accepts
any nonempty token word (standard verbs included). -/
def serde_method.deserialize (s : String) : Option String :=
  if !s.data.isEmpty && s.data.all isTokenChar then some s else none

/-- `IndexMap::insert` semantics: an existing key keeps its position and
gets the new value; a new key is appended. -/
def indexMapInsert (m : List (String × Bytes)) (k : String) (v : Bytes) :
    List (String × Bytes) :=
  if m.any (fun p => p.1 == k) then
    m.map (fun p => if p.1 == k then (k, v) else p)
  else m ++ [(k, v)]

/-- `serde_header_map` serialization: the header entries collected into
an `IndexMap` from name to raw value bytes. -/
def serde_header_map.serialize (headers : HeaderMap) :
    List (String × Bytes) :=
  headers.foldl (fun acc p => indexMapInsert acc p.1 p.2) []

/-- A byte `HeaderValue::try_from` accepts: tab, or 32–255 except
127. -/
def isHeaderValueByte (b : Nat) : Bool :=
  (b == 9 || (decide (32 ≤ b) && b != 127)) && decide (b < 256)

/-- `HeaderName::try_from`: validate the token chars and lowercase the
name. -/
def headerNameParse (s : String) : Option String :=
  if !s.data.isEmpty && s.data.all isTokenChar then
    some ⟨s.data.map Char.toLower⟩
  else none

/-- `HeaderValue::try_from`: validate the value bytes. -/
def headerValueParse (b : Bytes) : Option Bytes :=
  if b.all isHeaderValueByte then some b else none

/-- `serde_header_map` deserialization: fallibly map each (name, bytes)
entry to header types and collect. -/
def serde_header_map.deserialize : List (String × Bytes) → Option HeaderMap
  | [] => some []
  | p :: rest =>
    match headerNameParse p.1, headerValueParse p.2,
        serde_header_map.deserialize rest with
    | some name, some value, some tail => some ((name, value) :: tail)
    | _, _, _ => none

/-- `serde_status_code` serialization: the numeric code. -/
def serde_status_code.serialize (status : Nat) : Nat :=
  status

/-- `serde_status_code` deserialization: `StatusCode::from_u16`, valid
for 100–999. -/
def serde_status_code.deserialize (n : Nat) : Option Nat :=
  if 100 ≤ n ∧ n < 1000 then some n else none

/-- The persisted form of a `RequestRecord` (derived serde plus the
`cereal` field attributes). -/
structure SerRequestRecord where
  id : Nat
  profile_id : Option ProfileId
  recipe_id : RecipeId
  method : String
  url : String
  headers : List (String × Bytes)
  body : Option Bytes
deriving DecidableEq, Repr

/-- Serialization of a `RequestRecord`: id/provenance/url/body verbatim,
method via `serde_method`, headers via `serde_header_map`. -/
def RequestRecord.serialize (self : RequestRecord) : SerRequestRecord :=
  { id := self.id.uuid
    profile_id := self.profile_id
    recipe_id := self.recipe_id
    method := serde_method.serialize self.method
    url := self.url
    headers := serde_header_map.serialize self.headers
    body := self.body }

/-- Deserialization of a `RequestRecord`; fails if the method or a
header entry does not parse back. -/
def RequestRecord.deserialize (w : SerRequestRecord) :
    Option RequestRecord :=
  match serde_method.deserialize w.method,
      serde_header_map.deserialize w.headers with
  | some method, some headers =>
    some ⟨⟨w.id⟩, w.profile_id, w.recipe_id, method, w.url, headers, w.body⟩
  | _, _ => none

/-- The persisted form of a `ResponseRecord`: numeric status, header
entries, raw body bytes only (`impl Serialize for ResponseBody`
serializes just the bytes; the parsed body is skipped). -/
structure SerResponseRecord where
  status : Nat
  headers : List (String × Bytes)
  body : Bytes
deriving DecidableEq, Repr

/-- Serialization of a `ResponseRecord`. -/
def ResponseRecord.serialize (self : ResponseRecord) : SerResponseRecord :=
  { status := serde_status_code.serialize self.status
    headers := serde_header_map.serialize self.headers
    body := self.body.data }

/-- Deserialization of a `ResponseRecord`; `ResponseBody` comes back via
`From<Bytes>`, with no parsed body. -/
def ResponseRecord.deserialize (w : SerResponseRecord) :
    Option ResponseRecord :=
  match serde_status_code.deserialize w.status,
      serde_header_map.deserialize w.headers with
  | some status, some headers =>
    some ⟨status, headers, ResponseBody.new w.body⟩
  | _, _ => none

/-- A header map as real `HeaderMap`s provide: every name is a valid,
already-lowercase header name and every value holds valid header
bytes. -/
abbrev headerMapWF (h : HeaderMap) : Prop :=
  ∀ p ∈ h, headerNameParse p.1 = some p.1 ∧ headerValueParse p.2 = some p.2

/-- No header name occurs twice in the map. -/
abbrev headerNamesNodup (h : HeaderMap) : Prop :=
  (h.map Prod.fst).Nodup

namespace Tui

/-- `Request` (`src/http/record.rs`): a single instance of an HTTP
request as the TUI layer records it. -/
structure Request where
  id : RequestId
  profile_id : Option ProfileId
  recipe_id : RecipeId
  method : String
  url : String
  headers : HeaderMap
  query : List (String × String)
  body : Option String
deriving DecidableEq, Repr

/-- `Body` (`src/http/record.rs`): text-only response body. -/
structure Body where
  text : String
deriving DecidableEq, Repr

/-- `Response` (`src/http/record.rs`). -/
structure Response where
  status : Nat
  headers : HeaderMap
  body : Body
deriving DecidableEq, Repr

/-- `RequestRecord` (`src/http/record.rs`): a complete request+response
pairing with timing. -/
structure RequestRecord where
  id : RequestId
  request : Request
  response : Response
  start_time : Int
  end_time : Int
deriving DecidableEq, Repr

/-- `RequestRecord::duration`: elapsed time for the exchange. -/
def RequestRecord.duration (self : RequestRecord) : Int :=
  self.end_time - self.start_time

/-- `RequestBuildError` (`src/http/record.rs`): id plus cause. -/
structure RequestBuildError where
  id : RequestId
  error : String
deriving DecidableEq, Repr

/-- `RequestError` (`src/http/record.rs`): cause, the failed request,
and timing. -/
structure RequestError where
  error : String
  request : Request
  start_time : Int
  end_time : Int
deriving DecidableEq, Repr

/-- `RequestState` (`src/tui/view/state.rs`): state of an HTTP request
the view holds per recipe. -/
inductive RequestState where
  /-- The request is being built. -/
  | Building (id : RequestId)
  /-- Something went wrong during the build. -/
  | BuildError (error : RequestBuildError)
  /-- Request is in flight, or is about to be sent. -/
  | Loading (id : RequestId) (start_time : Int)
  /-- A resolved HTTP response, with the cached pretty body. -/
  | Response (record : RequestRecord) (pretty_body : Option String)
  /-- Error occurred sending the request or receiving the response. -/
  | RequestError (error : RequestError)
deriving DecidableEq, Repr

/-- `RequestState::id`: the unique ID for the request, retained
throughout its life cycle. -/
def RequestState.id : RequestState → RequestId
  | .Building id => id
  | .Loading id _ => id
  | .BuildError error => error.id
  | .RequestError error => error.request.id
  | .Response record _ => record.id

/-- `RequestState::is_initial`: is this the initial stage of the life
cycle (`matches!(self, Building)`)? -/
def RequestState.is_initial : RequestState → Bool
  | .Building _ => true
  | _ => false

/-- `RequestState::start_time`: when was the request launched? `none`
before launch. -/
def RequestState.start_time : RequestState → Option Int
  | .Building _ => none
  | .BuildError _ => none
  | .Loading _ start_time => some start_time
  | .Response record _ => some record.start_time
  | .RequestError error => some error.start_time

/-- `RequestState::duration`: running total while loading (the Rust
`Utc::now()` is the `now` argument), fixed once terminal, `none` before
launch. -/
def RequestState.duration (self : RequestState) (now : Int) : Option Int :=
  match self with
  | .Building _ => none
  | .BuildError _ => none
  | .Loading _ start_time => some (now - start_time)
  | .Response record _ => some record.duration
  | .RequestError error => some (error.end_time - error.start_time)

/-- `RequestState::building`: initialize a new request in the `Building`
state. -/
def RequestState.building (id : RequestId) : RequestState :=
  .Building id

/-- `RequestState::loading`: a loading state stamped with the current
time (the Rust `Utc::now()` is the `now` argument). -/
def RequestState.loading (id : RequestId) (now : Int) : RequestState :=
  .Loading id now

/-- `RequestState::response`: a state from a completed response, with
the pretty body computed once at construction; `prettify` stands for the
external `Response::prettify_body().ok()` content-type parser. -/
def RequestState.response (prettify : Tui.Response → Option String)
    (record : Tui.RequestRecord) : RequestState :=
  .Response record (prettify record.response)

/-- The build/send events that drive the lifecycle, per §4.3 of the
spec. -/
inductive LifecycleEvent where
  | buildFailed (error : RequestBuildError)
  | buildSucceeded (now : Int)
  | transportFailed (error : RequestError)
  | transportSucceeded (record : RequestRecord)
deriving Repr

/-- Modelled from the spec: the transition driver (the TUI controller
that replaces the state slot for an identifier) is not among the
provided sources; this is the spec's §4.3 transition function —
`Building` advances to `Loading` on a successful build or to
`BuildError` on a failed one, `Loading` advances to `Response` or
`RequestError` on transport completion, and the three latter states are
terminal — built over the source's state type and state constructors. -/
def step (prettify : Tui.Response → Option String) :
    RequestState → LifecycleEvent → Option RequestState
  | .Building _, .buildFailed e => some (.BuildError e)
  | .Building id, .buildSucceeded now => some (RequestState.loading id now)
  | .Loading _ _, .transportSucceeded record =>
    some (RequestState.response prettify record)
  | .Loading _ _, .transportFailed e => some (.RequestError e)
  | _, _ => none

end Tui

end Slumber

/-- C1: `BuildFieldOverrides::get(i, default)` returns the default when
index `i` has no entry, `some` of the overriding template when
`Override(v)` is present at `i`, and `none` when `Omit` is present at
`i`; the result depends only on the override map and the arguments. -/
theorem Slumber.buildFieldOverrides_get_spec
    (m : Slumber.BuildFieldOverrides) (i : Nat) (d : Slumber.Template) :
    (m.overrides.lookup i = none → m.get i d = some d) ∧
    (∀ v, m.overrides.lookup i = some (.Override v) → m.get i d = some v) ∧
    (m.overrides.lookup i = some .Omit → m.get i d = none) ∧
    (∀ m₂ : Slumber.BuildFieldOverrides,
      m.overrides = m₂.overrides → m.get i d = m₂.get i d) := by
  refine ⟨fun h => ?_, fun v h => ?_, fun h => ?_, fun m₂ h => ?_⟩ <;>
    simp [Slumber.BuildFieldOverrides.get, h]

/-- Witness for C1 at concrete override maps. -/
theorem Slumber.buildFieldOverrides_get_spec_witness :
    (Slumber.BuildFieldOverrides.mk []).get 0 ⟨"d"⟩ = some ⟨"d"⟩ ∧
    (Slumber.BuildFieldOverrides.mk [(0, .Override ⟨"v"⟩)]).get 0 ⟨"d"⟩
      = some ⟨"v"⟩ ∧
    (Slumber.BuildFieldOverrides.mk [(1, .Omit)]).get 1 ⟨"d"⟩ = none :=
  ⟨(Slumber.buildFieldOverrides_get_spec ⟨[]⟩ 0 ⟨"d"⟩).1 rfl,
   (Slumber.buildFieldOverrides_get_spec ⟨[(0, .Override ⟨"v"⟩)]⟩ 0 ⟨"d"⟩).2.1
     ⟨"v"⟩ rfl,
   (Slumber.buildFieldOverrides_get_spec ⟨[(1, .Omit)]⟩ 1 ⟨"d"⟩).2.2.1 rfl⟩

/-- C2: `RequestRecord::new` retains the body iff the transport request
has an in-memory body of length `≤ max_body_size`; a streaming body is
never retained; retained bytes, method, URL and headers are copied
verbatim, and id / provenance come from the seed. -/
theorem Slumber.requestRecord_new_spec (seed : Slumber.RequestSeed)
    (pid : Option Slumber.ProfileId) (request : Slumber.Request) (C : Nat) :
    ((Slumber.RequestRecord.new seed pid request C).method = request.method ∧
      (Slumber.RequestRecord.new seed pid request C).url = request.url ∧
      (Slumber.RequestRecord.new seed pid request C).headers = request.headers ∧
      (Slumber.RequestRecord.new seed pid request C).id = seed.id ∧
      (Slumber.RequestRecord.new seed pid request C).profile_id = pid ∧
      (Slumber.RequestRecord.new seed pid request C).recipe_id = seed.recipe_id) ∧
    ((Slumber.RequestRecord.new seed pid request C).body.isSome ↔
      ∃ data, request.body = some (.bytes data) ∧ data.length ≤ C) ∧
    (∀ data, request.body = some (.bytes data) → data.length ≤ C →
      (Slumber.RequestRecord.new seed pid request C).body = some data) ∧
    (∀ data, request.body = some (.bytes data) → C < data.length →
      (Slumber.RequestRecord.new seed pid request C).body = none) ∧
    (request.body = some .stream →
      (Slumber.RequestRecord.new seed pid request C).body = none) ∧
    (request.body = none →
      (Slumber.RequestRecord.new seed pid request C).body = none) := by
  refine ⟨⟨rfl, rfl, rfl, rfl, rfl, rfl⟩, ?_, ?_, ?_, ?_, ?_⟩
  · constructor
    · intro h
      match hb : request.body with
      | none => simp [Slumber.RequestRecord.new, hb] at h
      | some .stream =>
          simp [Slumber.RequestRecord.new, hb, Slumber.Body.as_bytes,
            Option.bind, Option.filter] at h
      | some (.bytes data) =>
          refine ⟨data, rfl, ?_⟩
          by_contra hlen
          simp [Slumber.RequestRecord.new, hb, Slumber.Body.as_bytes,
            Option.bind, Option.filter, hlen] at h
    · rintro ⟨data, hb, hlen⟩
      simp [Slumber.RequestRecord.new, hb, Slumber.Body.as_bytes,
        Option.bind, Option.filter, hlen]
  · intro data hb hlen
    simp [Slumber.RequestRecord.new, hb, Slumber.Body.as_bytes,
      Option.bind, Option.filter, hlen]
  · intro data hb hlen
    simp [Slumber.RequestRecord.new, hb, Slumber.Body.as_bytes,
      Option.bind, Option.filter, Nat.not_le.mpr hlen]
  · intro hb
    simp [Slumber.RequestRecord.new, hb, Slumber.Body.as_bytes,
      Option.bind, Option.filter]
  · intro hb
    simp [Slumber.RequestRecord.new, hb, Option.bind, Option.filter]

/-- Witness for C2 at a concrete seed, request and ceiling. -/
theorem Slumber.requestRecord_new_spec_witness :
    (Slumber.RequestRecord.new
      ⟨⟨7⟩, "recipe", ⟨none, ⟨[]⟩, ⟨[]⟩, ⟨[]⟩, none⟩⟩ none
      ⟨"GET", "http://localhost/url", [], some (.bytes [1, 2, 3])⟩
      3).body = some [1, 2, 3] ∧
    (Slumber.RequestRecord.new
      ⟨⟨7⟩, "recipe", ⟨none, ⟨[]⟩, ⟨[]⟩, ⟨[]⟩, none⟩⟩ none
      ⟨"GET", "http://localhost/url", [], some (.bytes [1, 2, 3])⟩
      2).body = none ∧
    (Slumber.RequestRecord.new
      ⟨⟨7⟩, "recipe", ⟨none, ⟨[]⟩, ⟨[]⟩, ⟨[]⟩, none⟩⟩ none
      ⟨"GET", "http://localhost/url", [], some .stream⟩
      99).body = none :=
  ⟨((Slumber.requestRecord_new_spec ⟨⟨7⟩, "recipe", ⟨none, ⟨[]⟩, ⟨[]⟩, ⟨[]⟩, none⟩⟩
      none ⟨"GET", "http://localhost/url", [], some (.bytes [1, 2, 3])⟩
      3).2.2.1) [1, 2, 3] rfl (by decide),
   ((Slumber.requestRecord_new_spec ⟨⟨7⟩, "recipe", ⟨none, ⟨[]⟩, ⟨[]⟩, ⟨[]⟩, none⟩⟩
      none ⟨"GET", "http://localhost/url", [], some (.bytes [1, 2, 3])⟩
      2).2.2.2.1) [1, 2, 3] rfl (by decide),
   ((Slumber.requestRecord_new_spec ⟨⟨7⟩, "recipe", ⟨none, ⟨[]⟩, ⟨[]⟩, ⟨[]⟩, none⟩⟩
      none ⟨"GET", "http://localhost/url", [], some .stream⟩
      99).2.2.2.2.1) rfl⟩

open Slumber

/-- Helper: a byte accepted by `HeaderValue::to_str` is below 127. -/
theorem Slumber.isVisibleAsciiByte_lt (b : Nat)
    (h : isVisibleAsciiByte b = true) : b < 127 := by
  simp [isVisibleAsciiByte] at h
  rcases h with ⟨_, h⟩ | rfl
  · exact h
  · decide

/-- Helper: visible-ASCII bytes never decode to a newline character. -/
theorem Slumber.visibleByte_ne_lf :
    ∀ b : Nat, b < 127 → isVisibleAsciiByte b = true →
      Char.ofNat b ≠ '\n' := by
  decide

/-- Helper: `headerValueToStr` succeeds, as `asciiStr`, on visible-ASCII
values. -/
theorem Slumber.headerValueToStr_visible (v : Bytes)
    (hv : v.all isVisibleAsciiByte = true) :
    headerValueToStr v = some (asciiStr v) := by
  simp [headerValueToStr, asciiStr, hv]

/-- Helper: the string of a visible-ASCII value contains no newline. -/
theorem Slumber.asciiStr_noLF (v : Bytes)
    (hv : v.all isVisibleAsciiByte = true) : '\n' ∉ (asciiStr v).data := by
  intro hmem
  have : ∃ b ∈ v, Char.ofNat b = '\n' := by
    simpa [asciiStr, List.mem_map] using hmem
  obtain ⟨b, hb, heq⟩ := this
  have hvb : isVisibleAsciiByte b = true := by
    have := List.all_eq_true.mp hv b hb
    simpa using this
  exact visibleByte_ne_lf b (isVisibleAsciiByte_lt b hvb) hvb heq

/-- Helper: on a header map whose values are all visible ASCII,
`curlHeaderFlags` succeeds with `curlHeaderFlagsStr`. -/
theorem Slumber.curlHeaderFlags_eq_ok (h : HeaderMap)
    (hv : ∀ p ∈ h, p.2.all isVisibleAsciiByte = true) :
    curlHeaderFlags h = .ok (curlHeaderFlagsStr h) := by
  induction h with
  | nil => rfl
  | cons p rest ih =>
    obtain ⟨name, value⟩ := p
    have hval : value.all isVisibleAsciiByte = true :=
      hv ⟨name, value⟩ (by simp)
    have hrest := ih (fun q hq => hv q (List.mem_cons_of_mem _ hq))
    simp [curlHeaderFlags, curlHeaderFlagsStr,
      headerValueToStr_visible value hval, hrest, Except.map]

/-- Helper: a header map containing a non-text value makes
`curlHeaderFlags` fail. -/
theorem Slumber.curlHeaderFlags_eq_error (h : HeaderMap)
    (hbad : ∃ p ∈ h, p.2.all isVisibleAsciiByte = false) :
    curlHeaderFlags h = .error "Error decoding header value" := by
  induction h with
  | nil => simp at hbad
  | cons p rest ih =>
    obtain ⟨name, value⟩ := p
    by_cases hval : value.all isVisibleAsciiByte = true
    · have hrest : ∃ p ∈ rest, p.2.all isVisibleAsciiByte = false := by
        rcases hbad with ⟨q, hq, hqv⟩
        rcases List.mem_cons.mp hq with rfl | hq2
        · exact absurd hval (by simp [hqv])
        · exact ⟨q, hq2, hqv⟩
      simp [curlHeaderFlags, headerValueToStr_visible value hval,
        ih hrest, Except.map]
    · simp only [curlHeaderFlags, headerValueToStr]
      rw [if_neg hval]

/-- Helper: the rendered header flags contain no newline when names are
newline-free and values are visible ASCII. -/
theorem Slumber.curlHeaderFlagsStr_noLF (h : HeaderMap)
    (hn : ∀ p ∈ h, '\n' ∉ p.1.data)
    (hv : ∀ p ∈ h, p.2.all isVisibleAsciiByte = true) :
    '\n' ∉ (curlHeaderFlagsStr h).data := by
  induction h with
  | nil => simp [curlHeaderFlagsStr]
  | cons p rest ih =>
    obtain ⟨name, value⟩ := p
    have hname := hn ⟨name, value⟩ (by simp)
    have hval := hv ⟨name, value⟩ (by simp)
    have hrest := ih (fun q hq => hn q (List.mem_cons_of_mem _ hq))
      (fun q hq => hv q (List.mem_cons_of_mem _ hq))
    have hascii := asciiStr_noLF value hval
    intro hmem
    simp only [curlHeaderFlagsStr, show ∀ a b : String,
      (a ++ b).data = a.data ++ b.data from fun _ _ => rfl,
      List.mem_append] at hmem
    rcases hmem with ((((h1 | h2) | h3) | h4) | h5) | h6
    · exact absurd h1 (by decide)
    · exact hname h2
    · exact absurd h3 (by decide)
    · exact hascii h4
    · exact absurd h5 (by decide)
    · exact hrest h6

/-- C9: `body_str()` returns `Ok(None)` when no body is present,
`Ok(Some)` of exactly the body bytes decoded as text when they are valid
UTF-8, and an error iff a body is present whose bytes are not valid
UTF-8. -/
theorem Slumber.requestRecord_body_str_spec (r : RequestRecord) :
    (r.body = none → r.body_str = .ok none) ∧
    (∀ b s, r.body = some b → utf8Str b = some s →
      r.body_str = .ok (some s)) ∧
    ((∃ e, r.body_str = .error e) ↔
      ∃ b, r.body = some b ∧ utf8Str b = none) := by
  refine ⟨fun h => ?_, fun b s hb hs => ?_, ?_, ?_⟩
  · simp [RequestRecord.body_str, h]
  · simp [RequestRecord.body_str, hb, hs]
  · rintro ⟨e, he⟩
    match hb : r.body with
    | none => simp [RequestRecord.body_str, hb] at he
    | some b =>
      match hs : utf8Str b with
      | some s => simp [RequestRecord.body_str, hb, hs] at he
      | none => exact ⟨b, rfl, hs⟩
  · rintro ⟨b, hb, hs⟩
    exact ⟨"Error decoding body", by simp [RequestRecord.body_str, hb, hs]⟩

/-- Witness for C9 at concrete records: a missing body, a valid UTF-8
body, and an invalid byte sequence. -/
theorem Slumber.requestRecord_body_str_spec_witness :
    (RequestRecord.body_str
      ⟨⟨1⟩, none, "r", "GET", "http://localhost/url", [], none⟩) = .ok none ∧
    (RequestRecord.body_str
      ⟨⟨1⟩, none, "r", "GET", "http://localhost/url", [],
        some [104, 105]⟩) = .ok (some "hi") ∧
    (∃ e, (RequestRecord.body_str
      ⟨⟨1⟩, none, "r", "GET", "http://localhost/url", [],
        some [0xFF]⟩) = .error e) :=
  ⟨(Slumber.requestRecord_body_str_spec
      ⟨⟨1⟩, none, "r", "GET", "http://localhost/url", [], none⟩).1 rfl,
   (Slumber.requestRecord_body_str_spec
      ⟨⟨1⟩, none, "r", "GET", "http://localhost/url", [],
        some [104, 105]⟩).2.1 [104, 105] "hi" rfl (by decide),
   (Slumber.requestRecord_body_str_spec
      ⟨⟨1⟩, none, "r", "GET", "http://localhost/url", [],
        some [0xFF]⟩).2.2.mpr ⟨[0xFF], rfl, by decide⟩⟩

/-- C6 (amended): `to_curl()` fails iff some header value is not
visible-ASCII text or the body is not valid UTF-8; on success it renders
the method, the URL, one `--header` flag per header, and one `--data`
flag when a body is present; the output is a single line whenever the
body text, the method and the URL contain no newline; the spec's
concrete example is reproduced exactly. -/
theorem Slumber.requestRecord_to_curl_spec (r : RequestRecord) :
    ((∃ e, r.to_curl = .error e) ↔
      ((∃ p ∈ r.headers, p.2.all isVisibleAsciiByte = false) ∨
        (∃ b, r.body = some b ∧ utf8Str b = none))) ∧
    ((∀ p ∈ r.headers, p.2.all isVisibleAsciiByte = true) →
      (r.body = none →
        r.to_curl = .ok ("curl -X" ++ r.method ++ " --url '" ++ r.url
          ++ "'" ++ curlHeaderFlagsStr r.headers)) ∧
      (∀ b s, r.body = some b → utf8Str b = some s →
        r.to_curl = .ok ("curl -X" ++ r.method ++ " --url '" ++ r.url
          ++ "'" ++ curlHeaderFlagsStr r.headers
          ++ " --data '" ++ s ++ "'"))) ∧
    (∀ out, r.to_curl = .ok out → '\n' ∉ r.method.data →
      '\n' ∉ r.url.data →
      (∀ p ∈ r.headers, '\n' ∉ p.1.data) →
      (∀ p ∈ r.headers, p.2.all isVisibleAsciiByte = true) →
      (∀ b s, r.body = some b → utf8Str b = some s → '\n' ∉ s.data) →
      '\n' ∉ out.data) ∧
    RequestRecord.to_curl
      ⟨⟨1⟩, none, "r", "DELETE", "http://localhost/url",
        [("accept", asciiBytes "application/json"),
          ("content-type", asciiBytes "application/json")],
        some (asciiBytes "\x7b\"data\":\"value\"\x7d")⟩
      = .ok ("curl -XDELETE --url 'http://localhost/url' --header 'accept: application/json' --header 'content-type: application/json' --data '\x7b\"data\":\"value\"\x7d'") := by
  have hdata : ∀ a b : String, (a ++ b).data = a.data ++ b.data :=
    fun _ _ => rfl
  refine ⟨?_, fun hH => ⟨fun hb => ?_, fun b s hb hs => ?_⟩, ?_, by rfl⟩
  · by_cases hH : ∀ p ∈ r.headers, p.2.all isVisibleAsciiByte = true
    · have hflags := curlHeaderFlags_eq_ok r.headers hH
      match hb : r.body with
      | none =>
        have hcurl : r.to_curl = .ok ("curl -X" ++ r.method ++ " --url '"
            ++ r.url ++ "'" ++ curlHeaderFlagsStr r.headers) := by
          simp [RequestRecord.to_curl, hflags, RequestRecord.body_str, hb]
        constructor
        · rintro ⟨e, he⟩
          rw [hcurl] at he
          cases he
        · rintro (⟨p, hp, hpv⟩ | ⟨b, hbb, _⟩)
          · exact absurd (hH p hp) (by simp [hpv])
          · cases hbb
      | some b =>
        match hs : utf8Str b with
        | some s =>
          have hcurl : r.to_curl = .ok ("curl -X" ++ r.method ++ " --url '"
              ++ r.url ++ "'" ++ curlHeaderFlagsStr r.headers
              ++ " --data '" ++ s ++ "'") := by
            simp [RequestRecord.to_curl, hflags, RequestRecord.body_str,
              hb, hs]
          constructor
          · rintro ⟨e, he⟩
            rw [hcurl] at he
            cases he
          · rintro (⟨p, hp, hpv⟩ | ⟨b2, hbb, hs2⟩)
            · exact absurd (hH p hp) (by simp [hpv])
            · obtain rfl : b = b2 := Option.some.inj hbb
              rw [hs] at hs2
              cases hs2
        | none =>
          have hcurl : r.to_curl = .error "Error decoding body" := by
            simp [RequestRecord.to_curl, hflags, RequestRecord.body_str,
              hb, hs]
          exact ⟨fun _ => Or.inr ⟨b, rfl, hs⟩, fun _ => ⟨_, hcurl⟩⟩
    · push_neg at hH
      obtain ⟨p, hp, hpv⟩ := hH
      have hpe : p.2.all isVisibleAsciiByte = false := by
        cases hc : p.2.all isVisibleAsciiByte
        · rfl
        · exact absurd hc hpv
      have hflags := curlHeaderFlags_eq_error r.headers ⟨p, hp, hpe⟩
      have hcurl : r.to_curl = .error "Error decoding header value" := by
        simp [RequestRecord.to_curl, hflags]
      exact ⟨fun _ => Or.inl ⟨p, hp, hpe⟩, fun _ => ⟨_, hcurl⟩⟩
  · have hflags := curlHeaderFlags_eq_ok r.headers hH
    simp [RequestRecord.to_curl, hflags, RequestRecord.body_str, hb]
  · have hflags := curlHeaderFlags_eq_ok r.headers hH
    simp [RequestRecord.to_curl, hflags, RequestRecord.body_str, hb, hs]
  · intro out hout hm hu hn hH hbody
    have hflags := curlHeaderFlags_eq_ok r.headers hH
    have hflagsLF := curlHeaderFlagsStr_noLF r.headers hn hH
    match hb : r.body with
    | none =>
      have hout2 : out = "curl -X" ++ r.method ++ " --url '" ++ r.url
          ++ "'" ++ curlHeaderFlagsStr r.headers := by
        have h2 := hout
        simp [RequestRecord.to_curl, hflags, RequestRecord.body_str, hb]
          at h2
        exact h2.symm
      subst hout2
      simp only [hdata, List.mem_append]
      rintro (((((h1 | h2) | h3) | h4) | h5) | h6)
      · exact absurd h1 (by decide)
      · exact hm h2
      · exact absurd h3 (by decide)
      · exact hu h4
      · exact absurd h5 (by decide)
      · exact hflagsLF h6
    | some b =>
      match hs : utf8Str b with
      | none =>
        exfalso
        have h2 := hout
        simp [RequestRecord.to_curl, hflags, RequestRecord.body_str, hb,
          hs] at h2
      | some s =>
        have hsLF := hbody b s hb hs
        have hout2 : out = "curl -X" ++ r.method ++ " --url '" ++ r.url
            ++ "'" ++ curlHeaderFlagsStr r.headers
            ++ " --data '" ++ s ++ "'" := by
          have h2 := hout
          simp [RequestRecord.to_curl, hflags, RequestRecord.body_str,
            hb, hs] at h2
          exact h2.symm
        subst hout2
        simp only [hdata, List.mem_append]
        rintro ((((((((h1 | h2) | h3) | h4) | h5) | h6) | h7) | h8) | h9)
        · exact absurd h1 (by decide)
        · exact hm h2
        · exact absurd h3 (by decide)
        · exact hu h4
        · exact absurd h5 (by decide)
        · exact hflagsLF h6
        · exact absurd h7 (by decide)
        · exact hsLF h8
        · exact absurd h9 (by decide)

/-- Counterexample to C6 as stated: the header value `é` (bytes
`C3 A9`) is valid UTF-8, yet `to_curl` fails on it, because header
values are decoded as visible ASCII, not UTF-8; and a valid-UTF-8 body
containing a newline yields a command that is not a single line. -/
theorem Slumber.requestRecord_to_curl_counterexample :
    utf8Str [0xC3, 0xA9] = some "é" ∧
    RequestRecord.to_curl
      ⟨⟨1⟩, none, "r", "GET", "http://localhost/url",
        [("x-note", [0xC3, 0xA9])], none⟩
      = .error "Error decoding header value" ∧
    RequestRecord.to_curl
      ⟨⟨1⟩, none, "r", "GET", "http://localhost/url", [],
        some (asciiBytes "a\nb")⟩
      = .ok "curl -XGET --url 'http://localhost/url' --data 'a\nb'" ∧
    '\n' ∈ ("curl -XGET --url 'http://localhost/url' --data 'a\nb'").data :=
  ⟨by decide, by rfl, by rfl, by decide⟩

/-- Witness for C6 at a concrete record with ASCII headers and a UTF-8
body, discharging each hypothesis of the success, error-iff and
single-line conjuncts. -/
theorem Slumber.requestRecord_to_curl_spec_witness :
    RequestRecord.to_curl
      ⟨⟨2⟩, none, "r", "GET", "http://localhost/url",
        [("accept", asciiBytes "application/json")], some [104, 105]⟩
      = .ok ("curl -XGET --url 'http://localhost/url' --header 'accept: application/json' --data 'hi'") ∧
    '\n' ∉ ("curl -XGET --url 'http://localhost/url' --header 'accept: application/json' --data 'hi'").data := by
  have hok := ((Slumber.requestRecord_to_curl_spec
      ⟨⟨2⟩, none, "r", "GET", "http://localhost/url",
        [("accept", asciiBytes "application/json")], some [104, 105]⟩).2.1
      (by decide)).2 [104, 105] "hi" rfl (by decide)
  have heq : RequestRecord.to_curl
      ⟨⟨2⟩, none, "r", "GET", "http://localhost/url",
        [("accept", asciiBytes "application/json")], some [104, 105]⟩
      = .ok ("curl -XGET --url 'http://localhost/url' --header 'accept: application/json' --data 'hi'") := by
    rw [hok]
    rfl
  refine ⟨heq, ?_⟩
  exact (Slumber.requestRecord_to_curl_spec
      ⟨⟨2⟩, none, "r", "GET", "http://localhost/url",
        [("accept", asciiBytes "application/json")], some [104, 105]⟩).2.2.1
    _ heq (by decide) (by decide) (by decide) (by decide)
    (fun b s hb hs => by
      obtain rfl : [104, 105] = b := Option.some.inj hb
      have hs2 : some "hi" = some s := by
        rw [show utf8Str [104, 105] = some "hi" from by decide] at hs
        exact hs
      obtain rfl : "hi" = s := Option.some.inj hs2
      decide)

/-- C3: every run starts in `Building` (the initial-state constructor
builds `Building`, the only state `is_initial` accepts); from `Building`
the only reachable next states are `BuildError` or `Loading`; from
`Loading` only `Response` or `RequestError`; and `BuildError`,
`Response` and `RequestError` are terminal. -/
theorem Slumber.Tui.requestState_lifecycle_spec
    (prettify : Slumber.Tui.Response → Option String) :
    (∀ id, Slumber.Tui.RequestState.building id
        = Slumber.Tui.RequestState.Building id ∧
      (Slumber.Tui.RequestState.building id).is_initial = true ∧
      (∀ s : Slumber.Tui.RequestState, s.is_initial = true →
        ∃ id2, s = .Building id2)) ∧
    (∀ s e s', Slumber.Tui.step prettify s e = some s' →
      (∀ id, s = .Building id →
        (∃ err, s' = .BuildError err) ∨ (∃ id2 t, s' = .Loading id2 t)) ∧
      (∀ id t, s = .Loading id t →
        (∃ rec pb, s' = .Response rec pb) ∨
          (∃ err, s' = .RequestError err))) ∧
    (∀ s e, ((∃ err, s = Slumber.Tui.RequestState.BuildError err) ∨
        (∃ rec pb, s = Slumber.Tui.RequestState.Response rec pb) ∨
        (∃ err, s = Slumber.Tui.RequestState.RequestError err)) →
      Slumber.Tui.step prettify s e = none) := by
  refine ⟨fun id => ⟨rfl, rfl, fun s hs => ?_⟩, fun s e s' h => ⟨?_, ?_⟩, ?_⟩
  · cases s <;> simp [Slumber.Tui.RequestState.is_initial] at hs ⊢
  · rintro id rfl
    cases e with
    | buildFailed err =>
      simp only [Slumber.Tui.step, Option.some.injEq] at h
      exact Or.inl ⟨err, h.symm⟩
    | buildSucceeded now =>
      simp only [Slumber.Tui.step, Slumber.Tui.RequestState.loading,
        Option.some.injEq] at h
      exact Or.inr ⟨id, now, h.symm⟩
    | transportFailed err => simp [Slumber.Tui.step] at h
    | transportSucceeded rec => simp [Slumber.Tui.step] at h
  · rintro id t rfl
    cases e with
    | buildFailed err => simp [Slumber.Tui.step] at h
    | buildSucceeded now => simp [Slumber.Tui.step] at h
    | transportFailed err =>
      simp only [Slumber.Tui.step, Option.some.injEq] at h
      exact Or.inr ⟨err, h.symm⟩
    | transportSucceeded rec =>
      simp only [Slumber.Tui.step, Slumber.Tui.RequestState.response,
        Option.some.injEq] at h
      exact Or.inl ⟨rec, prettify rec.response, h.symm⟩
  · rintro s e (⟨err, rfl⟩ | ⟨rec, pb, rfl⟩ | ⟨err, rfl⟩) <;> cases e <;> rfl

/-- Witness for C3: the initial state, a concrete `Building → Loading`
transition, and terminality of a concrete `BuildError` state. -/
theorem Slumber.Tui.requestState_lifecycle_spec_witness :
    (Slumber.Tui.RequestState.building ⟨3⟩).is_initial = true ∧
    ((∃ err, Slumber.Tui.RequestState.Loading ⟨3⟩ 5
        = Slumber.Tui.RequestState.BuildError err) ∨
      (∃ id2 t, Slumber.Tui.RequestState.Loading ⟨3⟩ 5
        = Slumber.Tui.RequestState.Loading id2 t)) ∧
    Slumber.Tui.step (fun _ => none)
      (.BuildError ⟨⟨3⟩, "boom"⟩) (.buildSucceeded 5) = none :=
  ⟨((Slumber.Tui.requestState_lifecycle_spec (fun _ => none)).1 ⟨3⟩).2.1,
   ((Slumber.Tui.requestState_lifecycle_spec (fun _ => none)).2.1
      (.Building ⟨3⟩) (.buildSucceeded 5) (.Loading ⟨3⟩ 5) rfl).1 ⟨3⟩ rfl,
   (Slumber.Tui.requestState_lifecycle_spec (fun _ => none)).2.2
     (.BuildError ⟨⟨3⟩, "boom"⟩) (.buildSucceeded 5)
     (Or.inl ⟨⟨⟨3⟩, "boom"⟩, rfl⟩)⟩

/-- C4: `start_time()` is `none` exactly on `Building`/`BuildError` and
the launch time otherwise; `duration()` is `none` exactly on
`Building`/`BuildError`, the running `now - start` while `Loading`, and
the fixed `end - start` once `Response`/`RequestError`; `is_initial()`
holds exactly on `Building`; `id()` returns the state's identifier in
every variant. -/
theorem Slumber.Tui.requestState_query_spec
    (s : Slumber.Tui.RequestState) (now : Int) :
    (s.start_time = none ↔
      ((∃ id, s = .Building id) ∨ (∃ e, s = .BuildError e))) ∧
    (s.duration now = none ↔
      ((∃ id, s = .Building id) ∨ (∃ e, s = .BuildError e))) ∧
    (∀ id st, s = .Loading id st →
      s.start_time = some st ∧ s.duration now = some (now - st)) ∧
    (∀ rec pb, s = .Response rec pb →
      s.start_time = some rec.start_time ∧
      s.duration now = some (rec.end_time - rec.start_time)) ∧
    (∀ e, s = .RequestError e →
      s.start_time = some e.start_time ∧
      s.duration now = some (e.end_time - e.start_time)) ∧
    (s.is_initial = true ↔ ∃ id, s = .Building id) ∧
    (∀ id, s = .Building id → s.id = id) ∧
    (∀ id st, s = .Loading id st → s.id = id) ∧
    (∀ e, s = .BuildError e → s.id = e.id) ∧
    (∀ rec pb, s = .Response rec pb → s.id = rec.id) ∧
    (∀ e, s = .RequestError e → s.id = e.request.id) := by
  cases s <;>
    refine ⟨?_, ?_, ?_, ?_, ?_, ?_, ?_, ?_, ?_, ?_, ?_⟩ <;>
    simp [Slumber.Tui.RequestState.start_time,
      Slumber.Tui.RequestState.duration,
      Slumber.Tui.RequestState.is_initial, Slumber.Tui.RequestState.id,
      Slumber.Tui.RequestRecord.duration]

/-- Witness for C4 at one concrete state of each variant. -/
theorem Slumber.Tui.requestState_query_spec_witness :
    (Slumber.Tui.RequestState.Building ⟨1⟩).start_time = none ∧
    ((Slumber.Tui.RequestState.Loading ⟨2⟩ 10).start_time = some 10 ∧
      (Slumber.Tui.RequestState.Loading ⟨2⟩ 10).duration 25 = some 15) ∧
    ((Slumber.Tui.RequestState.RequestError
        ⟨"boom", ⟨⟨4⟩, none, "rec", "GET", "http://x", [], [], none⟩, 3, 9⟩).duration 99
      = some 6) ∧
    (Slumber.Tui.RequestState.BuildError ⟨⟨5⟩, "bad"⟩).id = ⟨5⟩ :=
  ⟨((Slumber.Tui.requestState_query_spec (.Building ⟨1⟩) 0).1).mpr
      (Or.inl ⟨⟨1⟩, rfl⟩),
   (Slumber.Tui.requestState_query_spec (.Loading ⟨2⟩ 10) 25).2.2.1
     ⟨2⟩ 10 rfl,
   by
    have h := (Slumber.Tui.requestState_query_spec
      (.RequestError ⟨"boom", ⟨⟨4⟩, none, "rec", "GET", "http://x", [], [], none⟩, 3, 9⟩)
      99).2.2.2.2.1
      ⟨"boom", ⟨⟨4⟩, none, "rec", "GET", "http://x", [], [], none⟩, 3, 9⟩ rfl
    exact h.2,
   (Slumber.Tui.requestState_query_spec (.BuildError ⟨⟨5⟩, "bad"⟩) 0).2.2.2.2.2.2.2.2.1
     ⟨⟨5⟩, "bad"⟩ rfl⟩

/-- C5 (amended): `file_name()` prefers a `filename` parameter parsed
out of the Content-Disposition header by a quoting- and
whitespace-tolerant, semicolon-delimited parameter scan whose key match
is case-sensitive (exactly `filename`); otherwise it falls back to
`data.<subtype>` from the MIME subtype of the Content-Type header;
`none` when neither header yields a usable value; the spec's four
examples hold. -/
theorem Slumber.responseRecord_file_name_spec (r : ResponseRecord) :
    (∀ v s f, headerGet r.headers "content-disposition" = some v →
      headerValueToStr v = some s →
      findFilenameParam (splitChar s ';') = some f →
      r.file_name = some f) ∧
    ((headerGet r.headers "content-disposition" = none ∨
      (∃ v, headerGet r.headers "content-disposition" = some v ∧
        headerValueToStr v = none) ∨
      (∃ v s, headerGet r.headers "content-disposition" = some v ∧
        headerValueToStr v = some s ∧
        findFilenameParam (splitChar s ';') = none)) →
      (∀ ct cs m, headerGet r.headers "content-type" = some ct →
        headerValueToStr ct = some cs → mimeParse cs = some m →
        r.file_name = some ("data." ++ Slumber.Mime.subtype m)) ∧
      (headerGet r.headers "content-type" = none → r.file_name = none) ∧
      (∀ ct, headerGet r.headers "content-type" = some ct →
        headerValueToStr ct = none → r.file_name = none) ∧
      (∀ ct cs, headerGet r.headers "content-type" = some ct →
        headerValueToStr ct = some cs → mimeParse cs = none →
        r.file_name = none)) ∧
    ResponseRecord.file_name ⟨200,
      [("content-disposition",
        asciiBytes "form-data; filename=\"fish.png\""),
       ("content-type", asciiBytes "image/png")], ⟨[], none⟩⟩
      = some "fish.png" ∧
    ResponseRecord.file_name ⟨200,
      [("content-disposition", asciiBytes "form-data"),
       ("content-type", asciiBytes "application/json")], ⟨[], none⟩⟩
      = some "data.json" ∧
    ResponseRecord.file_name ⟨200,
      [("content-disposition", asciiBytes "form-data"),
       ("content-type", asciiBytes "image/jpeg")], ⟨[], none⟩⟩
      = some "data.jpeg" ∧
    ResponseRecord.file_name ⟨200, [], ⟨[], none⟩⟩ = none := by
  refine ⟨fun v s f h1 h2 h3 => ?_, fun hfail => ⟨?_, ?_, ?_, ?_⟩,
    by decide, by decide, by decide, by decide⟩
  · simp [ResponseRecord.file_name, h1, h2, h3, Option.orElse]
  all_goals
    rcases hfail with h | ⟨v, hv, hs⟩ | ⟨v, s, hv, hs, hf⟩
  · intro ct cs m hct hcs hm
    simp [ResponseRecord.file_name, h, hct, hcs, hm, Option.orElse]
  · intro ct cs m hct hcs hm
    simp [ResponseRecord.file_name, hv, hs, hct, hcs, hm, Option.orElse]
  · intro ct cs m hct hcs hm
    simp [ResponseRecord.file_name, hv, hs, hf, hct, hcs, hm, Option.orElse]
  · intro hct
    simp [ResponseRecord.file_name, h, hct, Option.orElse]
  · intro hct
    simp [ResponseRecord.file_name, hv, hs, hct, Option.orElse]
  · intro hct
    simp [ResponseRecord.file_name, hv, hs, hf, hct, Option.orElse]
  · intro ct hct hcs
    simp [ResponseRecord.file_name, h, hct, hcs, Option.orElse]
  · intro ct hct hcs
    simp [ResponseRecord.file_name, hv, hs, hct, hcs, Option.orElse]
  · intro ct hct hcs
    simp [ResponseRecord.file_name, hv, hs, hf, hct, hcs, Option.orElse]
  · intro ct cs hct hcs hm
    simp [ResponseRecord.file_name, h, hct, hcs, hm, Option.orElse]
  · intro ct cs hct hcs hm
    simp [ResponseRecord.file_name, hv, hs, hct, hcs, hm, Option.orElse]
  · intro ct cs hct hcs hm
    simp [ResponseRecord.file_name, hv, hs, hf, hct, hcs, hm, Option.orElse]

/-- Counterexample to C5 as stated: the parameter scan is not
case-tolerant — `FILENAME="fish.png"` is ignored (the suggested name is
`none`), while the lowercase spelling is accepted. -/
theorem Slumber.responseRecord_file_name_counterexample :
    ResponseRecord.file_name ⟨200,
      [("content-disposition",
        asciiBytes "form-data; FILENAME=\"fish.png\"")], ⟨[], none⟩⟩
      = none ∧
    ResponseRecord.file_name ⟨200,
      [("content-disposition",
        asciiBytes "form-data; filename=\"fish.png\"")], ⟨[], none⟩⟩
      = some "fish.png" :=
  ⟨by decide, by decide⟩

/-- Witness for C5: the preference and fallback conjuncts applied at
concrete records. -/
theorem Slumber.responseRecord_file_name_spec_witness :
    ResponseRecord.file_name ⟨200,
      [("content-disposition",
        asciiBytes "attachment; filename=\"a.txt\"")], ⟨[], none⟩⟩
      = some "a.txt" ∧
    ResponseRecord.file_name ⟨200,
      [("content-type", asciiBytes "text/csv")], ⟨[], none⟩⟩
      = some "data.csv" :=
  ⟨(Slumber.responseRecord_file_name_spec ⟨200,
      [("content-disposition",
        asciiBytes "attachment; filename=\"a.txt\"")], ⟨[], none⟩⟩).1
    (asciiBytes "attachment; filename=\"a.txt\"")
    "attachment; filename=\"a.txt\"" "a.txt"
    (by decide) (by decide) (by decide),
   ((Slumber.responseRecord_file_name_spec ⟨200,
      [("content-type", asciiBytes "text/csv")], ⟨[], none⟩⟩).2.1
    (Or.inl (by decide))).1
    (asciiBytes "text/csv") "text/csv" ⟨"text", "csv"⟩
    (by decide) (by decide) (by decide)⟩

/-- Helper: inserting a fresh key into an `IndexMap` appends it. -/
theorem Slumber.indexMapInsert_append (acc : List (String × Bytes))
    (k : String) (v : Bytes) (hk : ∀ p ∈ acc, p.1 ≠ k) :
    indexMapInsert acc k v = acc ++ [(k, v)] := by
  have hany : acc.any (fun p => p.1 == k) = false := by
    rw [List.any_eq_false]
    intro p hp
    simpa using hk p hp
  simp [indexMapInsert, hany]

/-- Helper: folding `IndexMap` inserts over entries with pairwise
distinct names, starting from an accumulator disjoint from them, appends
the entries in order. -/
theorem Slumber.indexMap_foldl_append (h : HeaderMap) : ∀ acc,
    (∀ k ∈ h.map Prod.fst, ∀ p ∈ acc, p.1 ≠ k) →
    (h.map Prod.fst).Nodup →
    h.foldl (fun acc p => indexMapInsert acc p.1 p.2) acc = acc ++ h := by
  induction h with
  | nil =>
    intro acc _ _
    simp
  | cons q t ih =>
    intro acc hdisj hnd
    obtain ⟨k, v⟩ := q
    simp only [List.foldl_cons]
    rw [indexMapInsert_append acc k v (hdisj k (by simp))]
    rw [ih (acc ++ [(k, v)]) ?_ ?_]
    · simp
    · intro x hx p hp
      rcases List.mem_append.mp hp with hpa | hpb
      · exact hdisj x (List.mem_cons_of_mem _ hx) p hpa
      · have hpk : p = (k, v) := by simpa using hpb
        subst hpk
        intro hkx
        have : k ∉ t.map Prod.fst := by
          have := hnd
          simp only [List.map_cons, List.nodup_cons] at this
          exact this.1
        rw [show k = x from hkx] at this
        exact this hx
    · have := hnd
      simp only [List.map_cons, List.nodup_cons] at this
      exact this.2

/-- Helper: serializing a header map with no repeated names is the
identity on its entry list. -/
theorem Slumber.serde_header_map_serialize_id (h : HeaderMap)
    (hnd : headerNamesNodup h) : serde_header_map.serialize h = h := by
  have := indexMap_foldl_append h [] (by simp) hnd
  simpa [serde_header_map.serialize] using this

/-- Helper: deserializing a well-formed header map's own entries gives
them back. -/
theorem Slumber.serde_header_map_deserialize_id (h : HeaderMap)
    (hwf : headerMapWF h) : serde_header_map.deserialize h = some h := by
  induction h with
  | nil => rfl
  | cons p t ih =>
    have hp := hwf p (by simp)
    have ht := ih (fun q hq => hwf q (List.mem_cons_of_mem _ hq))
    simp only [serde_header_map.deserialize, hp.1, hp.2, ht]

/-- C7 (amended): on records whose header maps carry no repeated name
(and are otherwise well-formed), serialize-then-deserialize returns the
request record identically and returns the response record with all
persisted fields (status, headers, body bytes) equal; the parsed-body
slot comes back absent and is ignored by record equality. -/
theorem Slumber.record_serde_roundtrip_spec (req : RequestRecord)
    (res : ResponseRecord) :
    (serde_method.deserialize req.method = some req.method →
      headerMapWF req.headers → headerNamesNodup req.headers →
      RequestRecord.deserialize (RequestRecord.serialize req) = some req) ∧
    (100 ≤ res.status → res.status < 1000 →
      headerMapWF res.headers → headerNamesNodup res.headers →
      ResponseRecord.deserialize (ResponseRecord.serialize res)
        = some ⟨res.status, res.headers, ResponseBody.new res.body.data⟩ ∧
      (∀ res', ResponseRecord.deserialize (ResponseRecord.serialize res)
          = some res' →
        res'.eqv res ∧ res'.body.parsed = none)) := by
  constructor
  · intro hm hwf hnd
    simp only [RequestRecord.serialize, RequestRecord.deserialize,
      serde_method.serialize, serde_header_map_serialize_id _ hnd,
      serde_header_map_deserialize_id _ hwf, hm]
  · intro hlo hhi hwf hnd
    have hds : ResponseRecord.deserialize (ResponseRecord.serialize res)
        = some ⟨res.status, res.headers, ResponseBody.new res.body.data⟩ := by
      simp only [ResponseRecord.serialize, ResponseRecord.deserialize,
        serde_status_code.serialize, serde_status_code.deserialize,
        serde_header_map_serialize_id _ hnd,
        serde_header_map_deserialize_id _ hwf, if_pos (And.intro hlo hhi)]
    refine ⟨hds, fun res' h => ?_⟩
    rw [hds] at h
    obtain rfl : (⟨res.status, res.headers, ResponseBody.new res.body.data⟩
        : ResponseRecord) = res' := Option.some.inj h
    exact ⟨⟨rfl, rfl, rfl⟩, rfl⟩

/-- Counterexample to C7 as stated: a request record with a repeated
header name does not survive the round trip — serialization collapses
the duplicate entries into one (the last value at the first position),
so the deserialized record differs from the original in its headers. -/
theorem Slumber.record_serde_roundtrip_counterexample :
    RequestRecord.deserialize (RequestRecord.serialize
      ⟨⟨5⟩, none, "rec", "GET", "http://localhost/url",
        [("accept", [97]), ("accept", [98])], none⟩)
      = some ⟨⟨5⟩, none, "rec", "GET", "http://localhost/url",
        [("accept", [98])], none⟩ ∧
    RequestRecord.deserialize (RequestRecord.serialize
      ⟨⟨5⟩, none, "rec", "GET", "http://localhost/url",
        [("accept", [97]), ("accept", [98])], none⟩)
      ≠ some ⟨⟨5⟩, none, "rec", "GET", "http://localhost/url",
        [("accept", [97]), ("accept", [98])], none⟩ :=
  ⟨by decide, by decide⟩

/-- Witness for C7 at one concrete request and response record. -/
theorem Slumber.record_serde_roundtrip_spec_witness :
    RequestRecord.deserialize (RequestRecord.serialize
      ⟨⟨5⟩, some "p", "rec", "GET", "http://localhost/url",
        [("accept", [97]), ("x-custom", [98])], some [1, 2]⟩)
      = some ⟨⟨5⟩, some "p", "rec", "GET", "http://localhost/url",
        [("accept", [97]), ("x-custom", [98])], some [1, 2]⟩ ∧
    ResponseRecord.deserialize (ResponseRecord.serialize
      ⟨200, [("content-type", [97])], ⟨[9, 8], some ⟨"parsed"⟩⟩⟩)
      = some ⟨200, [("content-type", [97])], ResponseBody.new [9, 8]⟩ :=
  ⟨(Slumber.record_serde_roundtrip_spec
      ⟨⟨5⟩, some "p", "rec", "GET", "http://localhost/url",
        [("accept", [97]), ("x-custom", [98])], some [1, 2]⟩
      ⟨200, [("content-type", [97])], ⟨[9, 8], some ⟨"parsed"⟩⟩⟩).1
    (by decide) (by decide) (by decide),
   ((Slumber.record_serde_roundtrip_spec
      ⟨⟨5⟩, some "p", "rec", "GET", "http://localhost/url",
        [("accept", [97]), ("x-custom", [98])], some [1, 2]⟩
      ⟨200, [("content-type", [97])], ⟨[9, 8], some ⟨"parsed"⟩⟩⟩).2
    (by decide) (by decide) (by decide) (by decide)).1⟩

/-- C8 (amended): `set_parsed_body` stores the given parsed body in the
response body's parsed slot, overwriting any previous value — the
fill-once discipline is a convention of the single writer, not enforced
by the operation, and the operation works on the exclusively borrowed
record (state passing), not through interior mutability. -/
theorem Slumber.responseRecord_set_parsed_body_spec (r : ResponseRecord)
    (p q : ResponseContent) :
    (r.set_parsed_body p).body.parsed = some p ∧
    ((r.set_parsed_body p).set_parsed_body q).body.parsed = some q ∧
    (r.set_parsed_body p).set_parsed_body q = r.set_parsed_body q :=
  ⟨rfl, rfl, rfl⟩

/-- Counterexample to C8 as stated: a second call to `set_parsed_body`
is possible and silently replaces the first attachment. -/
theorem Slumber.responseRecord_set_parsed_body_counterexample :
    ((ResponseRecord.set_parsed_body
      (ResponseRecord.set_parsed_body ⟨200, [], ⟨[1], none⟩⟩ ⟨"first"⟩)
      ⟨"second"⟩).body.parsed = some ⟨"second"⟩) ∧
    (some (⟨"second"⟩ : ResponseContent) ≠ some ⟨"first"⟩) :=
  ⟨rfl, by decide⟩

/-- C10: `set_parsed_body` changes only the parsed slot — status,
headers and raw body bytes are untouched — and, since record equality
compares the body by raw data only, attaching a parsed body never
changes whether two response records compare equal. -/
theorem Slumber.responseRecord_set_parsed_body_frame (r : ResponseRecord)
    (p : ResponseContent) :
    ((r.set_parsed_body p).status = r.status ∧
      (r.set_parsed_body p).headers = r.headers ∧
      (r.set_parsed_body p).body.data = r.body.data) ∧
    (∀ r₂, ((r.set_parsed_body p).eqv r₂ ↔ r.eqv r₂) ∧
      (r₂.eqv (r.set_parsed_body p) ↔ r₂.eqv r)) :=
  ⟨⟨rfl, rfl, rfl⟩, fun _ => ⟨Iff.rfl, Iff.rfl⟩⟩
